import Mathlib

/-!
Verification of the runtime core in `src/app.rs` (doryen-rs).

Modelling conventions:
* `f64` wall-clock times and tick intervals are modelled as exact rationals
  (`ℚ`); the fixed-timestep arithmetic of the scheduler is exact there.
* `u32` quantities are `Nat` with an explicit `% 2 ^ 32` wherever the source
  performs `u32` arithmetic that can wrap (release-mode semantics).
* Rust `panic!` / `unwrap()` aborts are modelled as `Except.error msg`;
  a returned `Except.ok` value is a non-panicking execution.
* External collaborators (Platform, GPU Backend, Image Decoder, file
  abstraction) are parameters: the decoder is a function
  `List Nat → Option ImageT`, the file system a function
  `List Nat → Except String FileH`; file handles expose `ready`
  (`is_ready()`) and `contents` (`read_binary()`).
* UTF-8 strings manipulated by byte-range slicing (`open_file`) are modelled
  as byte lists (`List Nat`); ASCII paths are represented exactly.
* The FPS counter (`FPS`) is purely diagnostic and its fields are not part of
  the modelled state; engine `update`/`render` callbacks are external and the
  frame model records how often each is invoked.
-/

/-- A decoded image: the Image Decoder collaborator yields an RGBA grid;
only its pixel dimensions are consumed by `app.rs`. -/
structure ImageT where
  width : Nat
  height : Nat
  deriving DecidableEq

/-- The Image Decoder collaborator: `image::load_from_memory`, `none` on a
malformed buffer. -/
def Decoder : Type := List Nat → Option ImageT

deriving instance DecidableEq for Except

/-- A `uni_app::fs::File` handle: `is_ready()` and the outcome of
`read_binary()`. -/
structure FileH where
  ready : Bool
  contents : Except String (List Nat)
  deriving DecidableEq

/-- `struct AsyncImage(String, uni_app::fs::File)` — path plus pending
handle. -/
structure AsyncImage where
  name : List Nat
  file : FileH
  deriving DecidableEq

/-- `webgl::Primitives` draw topology (the constructors used or comparable). -/
inductive Primitives where
  | triangles : Primitives
  | triangleFan : Primitives
  | lines : Primitives
  deriving DecidableEq

/-- `PrimitiveData` from program.rs: positions, optional texture coordinates,
vertex count, instances per primitive, topology. -/
structure PrimitiveData where
  posData : List ℚ
  texData : Option (List ℚ)
  count : Nat
  dataPerPrimitive : Nat
  drawMode : Primitives
  deriving DecidableEq

/-- Modelled from the spec: `PrimitiveData::new()` lives in program.rs, which
is not among the sources; the geometry invariant of the spec fixes the quad
arrays to exactly the eight floats pushed by `create_primitive`, so `new`
starts from empty arrays and zero counts. -/
def PrimitiveData.new : PrimitiveData :=
  { posData := [], texData := none, count := 0, dataPerPrimitive := 0,
    drawMode := Primitives.triangles }

/-- `create_primitive()` from app.rs: eight position floats pushed one by
one, eight texture-coordinate floats, `count = 4`, `data_per_primitive = 1`,
triangle-fan topology. -/
def create_primitive : PrimitiveData :=
  let data := PrimitiveData.new
  let data := { data with posData := data.posData ++ [-1, -1, -1, 1, 1, 1, 1, -1] }
  let data := { data with texData := some [0, 1, 0, 0, 1, 0, 1, 1] }
  let data := { data with count := 4 }
  let data := { data with dataPerPrimitive := 1 }
  let data := { data with drawMode := Primitives.triangleFan }
  data

/-- The length/count agreement of a geometry: position floats and (when
present) texture-coordinate floats must number vertex count × 2. -/
def geomValid (d : PrimitiveData) : Bool :=
  (d.posData.length == d.count * 2) &&
    (match d.texData with
     | some t => t.length == d.count * 2
     | none => true)

/-- Modelled from the spec: the Render Pipeline Adapter (program.rs, not
among the sources) must reject a malformed geometry before it reaches the
GPU Backend; a draw call (vertex count and topology) is issued exactly for
geometries satisfying the length/count agreement. -/
def render_primitive_gate (d : PrimitiveData) : Option (Nat × Primitives) :=
  if geomValid d then some (d.count, d.drawMode) else none

/-- The byte string "static/", the fixed base directory of `open_file`. -/
def staticDir : List Nat := [115, 116, 97, 116, 105, 99, 47]

/-- Path resolution performed by `open_file` in app.rs, for the native build
(`cfg!(not(target_arch = "wasm32"))` is true).  The source slices the path
by byte ranges: `&filename[0..1]` aborts on an empty path, and — reached
only when the first byte is not a separator — `&filename[1..2]` aborts on a
one-byte path.  `none` models those panics; byte 47 is a path separator and
byte 58 the drive-letter colon. -/
def open_fileResolve (filename : List Nat) : Option (List Nat) :=
  if filename.length < 1 then none
  else if filename.take 1 ≠ [47] then
    if filename.length < 2 then none
    else if (filename.drop 1).take 1 ≠ [58] then some (staticDir ++ filename)
    else some filename
  else some filename

/-- `AppOptions` — immutable configuration. -/
structure AppOptions where
  consoleWidth : Nat
  consoleHeight : Nat
  windowTitle : List Nat
  fontPath : List Nat
  vsync : Bool
  fullscreen : Bool
  showCursor : Bool
  deriving DecidableEq

/-- `uni_app::AppConfig` as passed by `App::create_window`. -/
structure WindowCfg where
  size : Nat × Nat
  title : List Nat
  vsync : Bool
  showCursor : Bool
  headless : Bool
  fullscreen : Bool
  deriving DecidableEq

/-- The `Console` collaborator: a fixed-size character-cell grid. -/
structure Console where
  width : Nat
  height : Nat
  deriving DecidableEq

/-- The fields of `struct App` the runtime logic manipulates.  Resource
slots (`app`, `gl`, `program`, `con`, `input`, `engine`) are optionals; the
GPU context and the opaque program/input/engine values carry no data of
their own.  The diagnostic `FPS` struct is not modelled. -/
structure AppState where
  appWindow : Option WindowCfg
  gl : Bool
  asyncImages : List (Option AsyncImage)
  font : Option Unit
  data : PrimitiveData
  program : Option Unit
  options : AppOptions
  con : Option Console
  input : Option Unit
  engine : Option Unit
  fontWidth : Nat
  fontHeight : Nat
  deriving DecidableEq

/-- `App::new(options)`. -/
def App.new (options : AppOptions) : AppState :=
  { appWindow := none, gl := false, asyncImages := [], font := none,
    data := create_primitive, program := none, options := options,
    con := some ⟨options.consoleWidth, options.consoleHeight⟩,
    input := none, engine := none, fontWidth := 0, fontHeight := 0 }

/-- `App::set_engine`. -/
def set_engine (s : AppState) : AppState :=
  { s with engine := some () }

/-- `App::create_window(screen_width, screen_height)`: builds the Platform
window from the options, creates the GL context, program and input state. -/
def create_window (screenWidth screenHeight : Nat) (s : AppState) : AppState :=
  { s with
    appWindow := some
      { size := (screenWidth, screenHeight), title := s.options.windowTitle,
        vsync := s.options.vsync, showCursor := s.options.showCursor,
        headless := false, fullscreen := s.options.fullscreen },
    program := some (), input := some (), gl := true }

/-- `App::load_font_bytes(image_data)`: decode (the source unwraps, so a
malformed buffer panics), record the font dimensions, derive the cell size
by the fixed 16×16 glyph-sheet layout, create the window at console grid ×
cell size (`u32` arithmetic), and bind the font texture when a GL context
exists. -/
def load_font_bytes (decode : Decoder) (imageData : List Nat)
    (s : AppState) : Except String AppState :=
  match decode imageData with
  | none => .error "panic: could not decode image"
  | some img =>
    let fw := img.width % 2 ^ 32
    let fh := img.height % 2 ^ 32
    let s := { s with fontWidth := fw, fontHeight := fh }
    let charWidth := fw / 16
    let charHeight := fh / 16
    let screenWidth := s.options.consoleWidth * charWidth % 2 ^ 32
    let screenHeight := s.options.consoleHeight * charHeight % 2 ^ 32
    let s := create_window screenWidth screenHeight s
    let s := if s.gl then { s with font := some () } else s
    .ok s

/-- The index scan of `App::load_async_images`: the source's counter `idx`
is incremented only under the `Some` pattern, and an index is pushed before
the increment when the handle reports ready. -/
def scanReady : List (Option AsyncImage) → Nat → List Nat
  | [], _ => []
  | none :: rest, idx => scanReady rest idx
  | some a :: rest, idx =>
    if a.file.ready then idx :: scanReady rest (idx + 1)
    else scanReady rest (idx + 1)

/-- One resolution step of `App::load_async_images`:
`self.async_images[idx].take().unwrap()` (panics on a missing or empty
slot), then `read_binary()` — a read error is logged and the slot stays
emptied, a read success is handed to `load_font_bytes`. -/
def resolveOne (decode : Decoder) (s : AppState) (idx : Nat) :
    Except String AppState :=
  match s.asyncImages.get? idx with
  | none => .error "panic: async image index out of bounds"
  | some none => .error "panic: unwrap of empty async image slot"
  | some (some asfile) =>
    let s := { s with asyncImages := s.asyncImages.set idx none }
    match asfile.file.contents with
    | .ok buf => load_font_bytes decode buf s
    | .error _ => .ok s

/-- `App::load_async_images`: early return on an empty pending set, scan for
ready handles, resolve each collected index in order, then retain the
occupied slots. -/
def load_async_images (decode : Decoder) (s : AppState) :
    Except String AppState :=
  if s.asyncImages.length = 0 then .ok s
  else
    match (scanReady s.asyncImages 0).foldlM (resolveOne decode) s with
    | .error e => .error e
    | .ok s =>
      .ok { s with asyncImages := s.asyncImages.filter fun f => f.isSome }

/-- `App::load_font`: resolve the configured font path (`open_file`), open
it through the file abstraction; an open error panics; a ready handle is
read at once (a read error panics) and decoded; a handle that is not ready
is pushed onto the pending set and control returns. -/
def load_font (decode : Decoder) (fsOpen : List Nat → Except String FileH)
    (s : AppState) : Except String AppState :=
  match open_fileResolve s.options.fontPath with
  | none => .error "panic: byte slice out of range"
  | some name =>
    match fsOpen name with
    | .error _ => .error "panic: could not open file"
    | .ok f =>
      if f.ready then
        match f.contents with
        | .ok buf => load_font_bytes decode buf s
        | .error _ => .error "panic: could not read file"
      else
        .ok { s with
              asyncImages := s.asyncImages ++ [some ⟨s.options.fontPath, f⟩] }

/-- The state moved into the frame closure by `App::run`: the `self` whose
resource slots have been `take`n, and the console handed to the engine. -/
structure LoopStart where
  self : AppState
  con : Console
  deriving DecidableEq

/-- The prelude of `App::run`: `load_font()`, then the six `take().unwrap()`
calls on `app`, `con`, `input`, `engine`, `program` and `gl` — each panics
when its slot is empty — before the frame callback is installed. -/
def runApp (decode : Decoder) (fsOpen : List Nat → Except String FileH)
    (s : AppState) : Except String LoopStart :=
  match load_font decode fsOpen s with
  | .error e => .error e
  | .ok s =>
    match s.appWindow with
    | none => .error "panic: unwrap of empty app slot"
    | some _ =>
      match s.con with
      | none => .error "panic: unwrap of empty con slot"
      | some con =>
        match s.input with
        | none => .error "panic: unwrap of empty input slot"
        | some _ =>
          match s.engine with
          | none => .error "panic: unwrap of empty engine slot"
          | some _ =>
            match s.program with
            | none => .error "panic: unwrap of empty program slot"
            | some _ =>
              if s.gl then
                let moved : AppState :=
                  { s with appWindow := none, con := none, input := none,
                           engine := none, program := none, gl := false }
                .ok ⟨moved, con⟩
              else .error "panic: unwrap of empty gl slot"

/-- `MAX_FRAMESKIP: i32 = 5`. -/
def MAX_FRAMESKIP : Int := 5

/-- `TICKS_PER_SECOND: f64 = 60.0`. -/
def TICKS_PER_SECOND : ℚ := 60

/-- `SKIP_TICKS: f64 = 1.0 / TICKS_PER_SECOND`. -/
def SKIP_TICKS : ℚ := 1 / TICKS_PER_SECOND

/-- Result of the catch-up `while` loop inside the frame callback. -/
structure TickOut where
  self : AppState
  nextTick : ℚ
  skipped : Int
  updates : Nat
  polls : Nat
  deriving DecidableEq

/-- The `while time > next_tick && skipped_frames < MAX_FRAMESKIP` loop of
`App::run`: each iteration polls the pending assets
(`load_async_images`, which can panic), invokes `engine.update` once
(counted in `updates`), advances `next_tick` by `SKIP_TICKS` and increments
`skipped_frames`.  `fuel` only bounds the recursion; the callback supplies
7, which the loop structure (at most 6 iterations from `skipped = -1`)
never exhausts. -/
def tickLoop (decode : Decoder) (time : ℚ) :
    Nat → AppState → ℚ → Int → Nat → Nat → Except String TickOut
  | 0, s, nt, sk, up, po => .ok ⟨s, nt, sk, up, po⟩
  | fuel + 1, s, nt, sk, up, po =>
    if time > nt ∧ sk < MAX_FRAMESKIP then
      match load_async_images decode s with
      | .error e => .error e
      | .ok s2 =>
        tickLoop decode time fuel s2 (nt + SKIP_TICKS) (sk + 1) (up + 1) (po + 1)
    else .ok ⟨s, nt, sk, up, po⟩

/-- Observable outcome of one frame callback. -/
structure FrameOut where
  self : AppState
  nextTick : ℚ
  skipped : Int
  updates : Nat
  polls : Nat
  renders : Nat
  drawCalls : Nat
  deriving DecidableEq

/-- One frame callback of `App::run` (the closure body): input advance and
event feeding are external; `skipped_frames` starts at −1 and `time` is the
Platform clock reading; the catch-up loop runs; when it ran the maximum
number of iterations (`skipped_frames == MAX_FRAMESKIP`) `next_tick` is
resynchronised to `time + SKIP_TICKS`; `engine.render` is invoked exactly
once; the full-screen-quad draw is issued exactly when a font texture is
bound. -/
def frameCallback (decode : Decoder) (time : ℚ) (s : AppState)
    (nextTick : ℚ) : Except String FrameOut :=
  match tickLoop decode time 7 s nextTick (-1) 0 0 with
  | .error e => .error e
  | .ok t =>
    let nt2 := if t.skipped = MAX_FRAMESKIP then time + SKIP_TICKS else t.nextTick
    .ok ⟨t.self, nt2, t.skipped, t.updates, t.polls, 1,
         if t.self.font.isSome then 1 else 0⟩

/-- `n` successive polls of the pending set (one per simulation tick). -/
def pollIter (decode : Decoder) : Nat → AppState → Except String AppState
  | 0, s => .ok s
  | n + 1, s =>
    match load_async_images decode s with
    | .error e => .error e
    | .ok s2 => pollIter decode n s2

/-- Number of iterations the catch-up loop performs from clock reading
`time`, deadline `nt` and skip counter `sk` (the loop body affects neither
the clock nor the loop conditions, so the count is a pure function). -/
def dueCount (time : ℚ) : Nat → ℚ → Int → Nat
  | 0, _, _ => 0
  | fuel + 1, nt, sk =>
    if time > nt ∧ sk < MAX_FRAMESKIP then
      dueCount time fuel (nt + SKIP_TICKS) (sk + 1) + 1
    else 0

/-- The observable outcome of a frame callback entered with an empty
pending set (see `frameCallback_nil`). -/
def nilOut (time nt : ℚ) (s : AppState) : FrameOut :=
  ⟨s,
   if -1 + (dueCount time 7 nt (-1) : ℤ) = MAX_FRAMESKIP then time + SKIP_TICKS
   else nt + (dueCount time 7 nt (-1) : ℚ) * SKIP_TICKS,
   -1 + (dueCount time 7 nt (-1) : ℤ),
   dueCount time 7 nt (-1), dueCount time 7 nt (-1), 1,
   if s.font.isSome then 1 else 0⟩

/-- A decoder rejecting every buffer. -/
def decode0 : Decoder := fun _ => none

/-- A decoder producing a 160×160 image for every buffer. -/
def decode160 : Decoder := fun _ => some ⟨160, 160⟩

/-- A decoder producing a 4294967280×16 image (dimensions are valid `u32`
values) for every buffer. -/
def decodeBig : Decoder := fun _ => some ⟨4294967280, 16⟩

/-- A file system whose handles are never ready (asynchronous load path). -/
def fsPending : List Nat → Except String FileH := fun _ => .ok ⟨false, .ok []⟩

/-- A file system whose handles are immediately ready. -/
def fsReady : List Nat → Except String FileH := fun _ => .ok ⟨true, .ok [7]⟩

/-- Sample options: an 80×25 console and the font path "f.png". -/
def optBase : AppOptions :=
  { consoleWidth := 80, consoleHeight := 25, windowTitle := [],
    fontPath := [102, 46, 112, 110, 103], vsync := true, fullscreen := false,
    showCursor := true }

/-- Options with a 17×1 console grid. -/
def optBig : AppOptions := { optBase with consoleWidth := 17, consoleHeight := 1 }

/-- A freshly constructed app. -/
def appBase : AppState := App.new optBase

/-- A freshly constructed app with an engine installed. -/
def appEngine : AppState := set_engine appBase

/-- A freshly constructed app over the 17×1 grid. -/
def sBig : AppState := App.new optBig

/-- A pending asset whose handle is ready but whose read fails. -/
def rdyAsset : AsyncImage := ⟨[1], ⟨true, .error "read failed"⟩⟩

/-- A pending asset whose handle is not ready. -/
def pendAsset : AsyncImage := ⟨[2], ⟨false, .ok []⟩⟩

/-- App with one ready (read-failing) and one not-ready pending asset. -/
def s5 : AppState := { appBase with asyncImages := [some rdyAsset, some pendAsset] }

/-- `s5` after the ready asset has been dropped. -/
def s5out : AppState := { appBase with asyncImages := [some pendAsset] }

/-- App with one ready pending asset whose bytes read fine (the decoder
decides their fate). -/
def sC2 : AppState := { appBase with asyncImages := [some ⟨[1], ⟨true, .ok [0]⟩⟩] }

/-- Projection: the created window's size, when the run did not panic and a
window exists. -/
def windowSize : Except String AppState → Option (Nat × Nat) := fun r =>
  match r with
  | .ok s => s.appWindow.map fun w => w.size
  | .error _ => none

/-- A poll of an empty pending set returns at once, unchanged. -/
theorem load_async_images_nil (decode : Decoder) (s : AppState)
    (hs : s.asyncImages = []) : load_async_images decode s = .ok s := by
  unfold load_async_images
  rw [hs]
  simp

/-- With an empty pending set the catch-up loop never panics, leaves the
state alone and advances the deadline and counters by the due count. -/
theorem tickLoop_nil (decode : Decoder) (time : ℚ) (fuel : Nat) :
    ∀ (s : AppState) (nt : ℚ) (sk : Int) (up po : Nat),
    s.asyncImages = [] →
    tickLoop decode time fuel s nt sk up po =
      .ok ⟨s, nt + (dueCount time fuel nt sk : ℚ) * SKIP_TICKS,
           sk + (dueCount time fuel nt sk : ℤ),
           up + dueCount time fuel nt sk, po + dueCount time fuel nt sk⟩ := by
  induction fuel with
  | zero =>
    intro s nt sk up po hs
    simp [tickLoop, dueCount]
  | succ n ih =>
    intro s nt sk up po hs
    by_cases hc : time > nt ∧ sk < MAX_FRAMESKIP
    · rw [tickLoop, if_pos hc]
      simp only [load_async_images_nil decode s hs]
      rw [ih s (nt + SKIP_TICKS) (sk + 1) (up + 1) (po + 1) hs]
      rw [dueCount, if_pos hc]
      have h1 : nt + SKIP_TICKS +
          (dueCount time n (nt + SKIP_TICKS) (sk + 1) : ℚ) * SKIP_TICKS =
          nt + ((dueCount time n (nt + SKIP_TICKS) (sk + 1) + 1 : ℕ) : ℚ) * SKIP_TICKS := by
        push_cast
        ring
      have h2 : sk + 1 + (dueCount time n (nt + SKIP_TICKS) (sk + 1) : ℤ) =
          sk + ((dueCount time n (nt + SKIP_TICKS) (sk + 1) + 1 : ℕ) : ℤ) := by
        push_cast
        ring
      rw [h1, h2]
      have h3 : up + 1 + dueCount time n (nt + SKIP_TICKS) (sk + 1) =
          up + (dueCount time n (nt + SKIP_TICKS) (sk + 1) + 1) := by omega
      have h4 : po + 1 + dueCount time n (nt + SKIP_TICKS) (sk + 1) =
          po + (dueCount time n (nt + SKIP_TICKS) (sk + 1) + 1) := by omega
      rw [h3, h4]
    · rw [tickLoop, if_neg hc, dueCount, if_neg hc]
      simp

/-- A frame callback entered with an empty pending set: render once, draw
exactly when a font is bound, update and poll `dueCount` many times. -/
theorem frameCallback_nil (decode : Decoder) (time nt : ℚ) (s : AppState)
    (hs : s.asyncImages = []) :
    frameCallback decode time s nt = .ok (nilOut time nt s) := by
  unfold frameCallback
  rw [tickLoop_nil decode time 7 s nt (-1) 0 0 hs]
  simp [nilOut]

/-- The catch-up loop's counters and deadline on any non-panicking run are
determined by `dueCount`. -/
theorem tickLoop_ok (decode : Decoder) (time : ℚ) (fuel : Nat) :
    ∀ (s : AppState) (nt : ℚ) (sk : Int) (up po : Nat) (t : TickOut),
    tickLoop decode time fuel s nt sk up po = .ok t →
    t.updates = up + dueCount time fuel nt sk ∧
    t.polls = po + dueCount time fuel nt sk ∧
    t.nextTick = nt + (dueCount time fuel nt sk : ℚ) * SKIP_TICKS ∧
    t.skipped = sk + (dueCount time fuel nt sk : ℤ) := by
  induction fuel with
  | zero =>
    intro s nt sk up po t h
    simp only [tickLoop] at h
    injection h with h
    subst h
    simp [dueCount]
  | succ n ih =>
    intro s nt sk up po t h
    by_cases hc : time > nt ∧ sk < MAX_FRAMESKIP
    · rw [tickLoop, if_pos hc] at h
      cases hp : load_async_images decode s with
      | error e => rw [hp] at h; simp at h
      | ok s2 =>
        rw [hp] at h
        obtain ⟨h1, h2, h3, h4⟩ := ih s2 (nt + SKIP_TICKS) (sk + 1) (up + 1) (po + 1) t h
        rw [dueCount, if_pos hc]
        refine ⟨by omega, by omega, ?_, ?_⟩
        · rw [h3]
          push_cast
          ring
        · rw [h4]
          push_cast
          ring
    · rw [tickLoop, if_neg hc] at h
      injection h with h
      subst h
      rw [dueCount, if_neg hc]
      simp

/-- A positive due count needs the clock to be past the deadline. -/
theorem dueCount_pos (time : ℚ) (fuel : Nat) (nt : ℚ) (sk : Int)
    (h : 0 < dueCount time fuel nt sk) : time > nt := by
  cases fuel with
  | zero => simp [dueCount] at h
  | succ n =>
    rw [dueCount] at h
    by_cases hc : time > nt ∧ sk < MAX_FRAMESKIP
    · exact hc.1
    · rw [if_neg hc] at h
      omega

/-- The due count is `min (max ⌈Δ / tick_interval⌉ 0) (5 - sk)` while the
fuel exceeds the remaining iteration budget. -/
theorem dueCount_eq (time : ℚ) (fuel : Nat) :
    ∀ (nt : ℚ) (sk : Int), sk ≤ MAX_FRAMESKIP → MAX_FRAMESKIP - sk < (fuel : ℤ) →
    (dueCount time fuel nt sk : ℤ) =
      min (max ⌈(time - nt) / SKIP_TICKS⌉ 0) (MAX_FRAMESKIP - sk) := by
  induction fuel with
  | zero =>
    intro nt sk h1 h2
    exfalso
    simp [MAX_FRAMESKIP] at h1 h2
    omega
  | succ n ih =>
    intro nt sk h1 h2
    by_cases hc : time > nt ∧ sk < MAX_FRAMESKIP
    · have hS : (0 : ℚ) < SKIP_TICKS := by norm_num [SKIP_TICKS, TICKS_PER_SECOND]
      have hx : (0 : ℚ) < (time - nt) / SKIP_TICKS :=
        div_pos (by linarith [hc.1]) hS
      have hceil : 1 ≤ ⌈(time - nt) / SKIP_TICKS⌉ := by
        have h0 : (0 : ℤ) < ⌈(time - nt) / SKIP_TICKS⌉ :=
          Int.lt_ceil.mpr (by exact_mod_cast hx)
        omega
      have hstep : (time - (nt + SKIP_TICKS)) / SKIP_TICKS =
          (time - nt) / SKIP_TICKS - 1 := by
        rw [SKIP_TICKS, TICKS_PER_SECOND]
        field_simp
        ring
      have hsk5 : sk < 5 := hc.2
      have hsk5a : sk ≤ 5 := by omega
      have hrec := ih (nt + SKIP_TICKS) (sk + 1) (by simp [MAX_FRAMESKIP]; omega)
        (by simp only [MAX_FRAMESKIP] at h2 ⊢; push_cast at h2 ⊢; omega)
      rw [hstep, Int.ceil_sub_one] at hrec
      rw [dueCount, if_pos hc]
      push_cast
      simp only [MAX_FRAMESKIP] at hrec ⊢
      omega
    · rw [dueCount, if_neg hc]
      rcases not_and_or.mp hc with h | h
      · have hx : (time - nt) / SKIP_TICKS ≤ 0 := by
          have hS : (0 : ℚ) < SKIP_TICKS := by norm_num [SKIP_TICKS, TICKS_PER_SECOND]
          have : time - nt ≤ 0 := by
            have := not_lt.mp h
            linarith
          exact div_nonpos_of_nonpos_of_nonneg this (le_of_lt hS)
        have hc0 : ⌈(time - nt) / SKIP_TICKS⌉ ≤ 0 :=
          Int.ceil_le.mpr (by exact_mod_cast hx)
        simp only [MAX_FRAMESKIP] at h1 ⊢
        omega
      · have hsk : sk = 5 := by
          simp only [MAX_FRAMESKIP] at h h1
          omega
        simp only [MAX_FRAMESKIP, hsk]
        omega

/-- The shape of every non-panicking frame callback in terms of its
catch-up loop run. -/
theorem frameCallback_ok (decode : Decoder) (time nt : ℚ) (s : AppState)
    (r : FrameOut) (h : frameCallback decode time s nt = .ok r) :
    ∃ t : TickOut, tickLoop decode time 7 s nt (-1) 0 0 = .ok t ∧
      r.self = t.self ∧ r.updates = t.updates ∧ r.polls = t.polls ∧
      r.skipped = t.skipped ∧ r.renders = 1 ∧
      r.drawCalls = (if t.self.font.isSome then 1 else 0) ∧
      r.nextTick = (if t.skipped = MAX_FRAMESKIP then time + SKIP_TICKS
                    else t.nextTick) := by
  unfold frameCallback at h
  cases ht : tickLoop decode time 7 s nt (-1) 0 0 with
  | error e => rw [ht] at h; simp at h
  | ok t =>
    rw [ht] at h
    simp only at h
    injection h with h
    subst h
    exact ⟨t, rfl, rfl, rfl, rfl, rfl, rfl, rfl, rfl⟩

/-- C3 (amended): in every non-panicking frame callback entered with clock
reading `time` and deadline `nt`, the number of simulation updates equals
`min (max ⌈Δ / tick_interval⌉ 0) (MAX_FRAMESKIP + 1)` for `Δ = time − nt` —
a ceiling, not the floor the claim states; the cap of 6 iterations is hit
exactly when 6 updates ran, in which case — and only then — `next_tick` is
resynchronised to `time + tick_interval`, and otherwise `next_tick`
advances by exactly `updates · tick_interval`. -/
theorem c3_tick_count (decode : Decoder) (time nt : ℚ) (s : AppState)
    (r : FrameOut) (h : frameCallback decode time s nt = .ok r) :
    (r.updates : ℤ) = min (max ⌈(time - nt) / SKIP_TICKS⌉ 0) (MAX_FRAMESKIP + 1) ∧
    (r.skipped = MAX_FRAMESKIP ↔ r.updates = 6) ∧
    (r.updates = 6 → r.nextTick = time + SKIP_TICKS) ∧
    (r.updates < 6 → r.nextTick = nt + (r.updates : ℚ) * SKIP_TICKS) := by
  obtain ⟨t, ht, hself, hup, hpo, hsk, hren, hdraw, hnt⟩ :=
    frameCallback_ok decode time nt s r h
  obtain ⟨h1, h2, h3, h4⟩ := tickLoop_ok decode time 7 s nt (-1) 0 0 t ht
  have hd := dueCount_eq time 7 nt (-1) (by norm_num [MAX_FRAMESKIP])
    (by norm_num [MAX_FRAMESKIP])
  set d := dueCount time 7 nt (-1) with hdd
  refine ⟨?_, ?_, ?_, ?_⟩
  · simp only [MAX_FRAMESKIP] at hd ⊢
    omega
  · simp only [MAX_FRAMESKIP]
    omega
  · intro h6
    have hcap : t.skipped = MAX_FRAMESKIP := by
      simp only [MAX_FRAMESKIP]
      omega
    rw [hnt, if_pos hcap]
  · intro hlt
    have hne : ¬t.skipped = MAX_FRAMESKIP := by
      simp only [MAX_FRAMESKIP]
      omega
    rw [hnt, if_neg hne, h3]
    have hud : r.updates = d := by omega
    rw [hud]

/-- Witness for C3: at `Δ = 0.2 s` (clock `1/5`, deadline `0`, empty
pending set) exactly 6 updates run and `next_tick` is resynchronised. -/
theorem c3_tick_count_witness :
    frameCallback decode0 (1/5) appBase 0 = .ok (nilOut (1/5) 0 appBase) ∧
    ((nilOut (1/5) 0 appBase).updates : ℤ) =
      min (max ⌈(((1:ℚ)/5) - 0) / SKIP_TICKS⌉ 0) (MAX_FRAMESKIP + 1) ∧
    (nilOut (1/5) 0 appBase).updates = 6 ∧
    (nilOut (1/5) 0 appBase).nextTick = 1/5 + SKIP_TICKS := by
  have h := frameCallback_nil decode0 (1/5) 0 appBase rfl
  have m := c3_tick_count decode0 (1/5) 0 appBase (nilOut (1/5) 0 appBase) h
  have hd : dueCount (1/5) 7 0 (-1) = 6 := by
    norm_num [dueCount, SKIP_TICKS, TICKS_PER_SECOND, MAX_FRAMESKIP]
  exact ⟨h, m.1, hd, m.2.2.1 hd⟩

/-- C3 counterexample: with `Δ = 1/120 s` (half a tick) the code performs
one update, while the claim's `min (floor(Δ / tick_interval))
(MAX_FRAMESKIP + 1)` yields zero. -/
theorem c3_floor_cex :
    frameCallback decode0 (1/120) appBase 0 = .ok (nilOut (1/120) 0 appBase) ∧
    (nilOut (1/120) 0 appBase).updates = 1 ∧
    min ⌊(((1:ℚ)/120) - 0) / SKIP_TICKS⌋ (MAX_FRAMESKIP + 1) = 0 := by
  refine ⟨frameCallback_nil decode0 (1/120) 0 appBase rfl, ?_, ?_⟩
  · show dueCount (1/120) 7 0 (-1) = 1
    norm_num [dueCount, SKIP_TICKS, TICKS_PER_SECOND, MAX_FRAMESKIP]
  · norm_num [SKIP_TICKS, TICKS_PER_SECOND, MAX_FRAMESKIP]

/-- C4: in every non-panicking frame callback the engine's render callback
is invoked exactly once — whatever the number of updates — and the GPU draw
of the full-screen quad is issued iff a font texture is bound. -/
theorem c4_render_once (decode : Decoder) (time nt : ℚ) (s : AppState)
    (r : FrameOut) (h : frameCallback decode time s nt = .ok r) :
    r.renders = 1 ∧ (r.drawCalls = 1 ↔ r.self.font.isSome = true) ∧
    (r.drawCalls = 0 ↔ r.self.font = none) := by
  obtain ⟨t, ht, hself, hup, hpo, hsk, hren, hdraw, hnt⟩ :=
    frameCallback_ok decode time nt s r h
  refine ⟨hren, ?_, ?_⟩
  · rw [hdraw, hself]
    cases hf : t.self.font.isSome <;> simp [hf]
  · rw [hdraw, hself]
    cases hf : t.self.font with
    | none => simp [hf]
    | some u => simp [hf]

/-- Witness for C4: a frame with zero due ticks (clock `0`, deadline `1/2`)
still renders exactly once, and with no font bound no draw is issued. -/
theorem c4_render_once_witness :
    frameCallback decode0 0 appBase (1/2) = .ok (nilOut 0 (1/2) appBase) ∧
    (nilOut 0 (1/2) appBase).updates = 0 ∧
    (nilOut 0 (1/2) appBase).renders = 1 ∧
    (nilOut 0 (1/2) appBase).drawCalls = 0 := by
  have h := frameCallback_nil decode0 0 (1/2) appBase rfl
  have m := c4_render_once decode0 0 (1/2) appBase (nilOut 0 (1/2) appBase) h
  refine ⟨h, ?_, m.1, m.2.2.mpr rfl⟩
  show dueCount 0 7 (1/2) (-1) = 0
  norm_num [dueCount, SKIP_TICKS, TICKS_PER_SECOND, MAX_FRAMESKIP]

/-- C6: across every non-panicking frame callback the scheduler's
`next_tick` is monotonically non-decreasing — including the frame-skip
resynchronisation case (and without even needing clock monotonicity, since
`next_tick` changes only inside callbacks). -/
theorem c6_next_tick_monotone (decode : Decoder) (time nt : ℚ) (s : AppState)
    (r : FrameOut) (h : frameCallback decode time s nt = .ok r) :
    nt ≤ r.nextTick := by
  obtain ⟨t, ht, hself, hup, hpo, hsk, hren, hdraw, hnt⟩ :=
    frameCallback_ok decode time nt s r h
  obtain ⟨h1, h2, h3, h4⟩ := tickLoop_ok decode time 7 s nt (-1) 0 0 t ht
  have hS : (0 : ℚ) < SKIP_TICKS := by norm_num [SKIP_TICKS, TICKS_PER_SECOND]
  by_cases hcap : t.skipped = MAX_FRAMESKIP
  · rw [hnt, if_pos hcap]
    have hdpos : 0 < dueCount time 7 nt (-1) := by
      simp only [MAX_FRAMESKIP] at hcap
      omega
    have := dueCount_pos time 7 nt (-1) hdpos
    linarith
  · rw [hnt, if_neg hcap, h3]
    have hmul : (0:ℚ) ≤ (dueCount time 7 nt (-1) : ℚ) * SKIP_TICKS :=
      mul_nonneg (by positivity) (le_of_lt hS)
    linarith

/-- Witness for C6: the deadline `0` does not decrease across the concrete
frame callback at clock `1/5`. -/
theorem c6_next_tick_monotone_witness :
    (0:ℚ) ≤ (nilOut (1/5) 0 appBase).nextTick :=
  c6_next_tick_monotone decode0 (1/5) 0 appBase (nilOut (1/5) 0 appBase)
    (frameCallback_nil decode0 (1/5) 0 appBase rfl)

/-- `load_font_bytes` never touches the pending set or the engine slot. -/
theorem load_font_bytes_fields (decode : Decoder) (buf : List Nat)
    (s s2 : AppState) (h : load_font_bytes decode buf s = .ok s2) :
    s2.asyncImages = s.asyncImages ∧ s2.engine = s.engine := by
  unfold load_font_bytes at h
  split at h
  · simp at h
  · injection h with h
    subst h
    exact ⟨rfl, rfl⟩

/-- A successful resolution step empties exactly the addressed slot, which
must have held an asset. -/
theorem resolveOne_ok (decode : Decoder) (s : AppState) (i : Nat)
    (s2 : AppState) (h : resolveOne decode s i = .ok s2) :
    s2.asyncImages = s.asyncImages.set i none ∧
    ∃ a, s.asyncImages.get? i = some (some a) := by
  unfold resolveOne at h
  split at h
  · simp at h
  · simp at h
  · rename_i asfile hget
    split at h
    · rename_i buf hbuf
      have hf := (load_font_bytes_fields decode buf _ s2 h).1
      exact ⟨hf, asfile, hget⟩
    · injection h with h
      subst h
      exact ⟨rfl, asfile, hget⟩

/-- After folding the resolution step over a list of indices, every visited
position is emptied and every other position is untouched. -/
theorem foldResolve_get (decode : Decoder) :
    ∀ (idxs : List Nat) (s s2 : AppState),
    idxs.foldlM (resolveOne decode) s = .ok s2 →
    ∀ p : Nat,
      (p ∈ idxs → s2.asyncImages.get? p = some none) ∧
      (p ∉ idxs → s2.asyncImages.get? p = s.asyncImages.get? p) := by
  intro idxs
  induction idxs with
  | nil =>
    intro s s2 h p
    injection h with h
    subst h
    exact ⟨fun hp => absurd hp (List.not_mem_nil p), fun _ => rfl⟩
  | cons i rest ih =>
    intro s s2 h p
    rw [List.foldlM] at h
    cases hr : resolveOne decode s i with
    | error e =>
      rw [hr] at h
      replace h : (Except.error e : Except String AppState) = .ok s2 := h
      simp at h
    | ok s1 =>
      rw [hr] at h
      replace h : rest.foldlM (resolveOne decode) s1 = .ok s2 := h
      obtain ⟨hset, a, hga⟩ := resolveOne_ok decode s i s1 hr
      have hlen : i < s.asyncImages.length := by
        by_contra hn
        rw [List.get?_eq_none.mpr (by omega)] at hga
        cases hga
      constructor
      · intro hp
        by_cases hp2 : p ∈ rest
        · exact (ih s1 s2 h p).1 hp2
        · have hpi : p = i := by
            rcases List.mem_cons.mp hp with rfl | hmem
            · rfl
            · exact absurd hmem hp2
          subst hpi
          rw [(ih s1 s2 h p).2 hp2, hset]
          exact List.get?_set_eq_of_lt none hlen
      · intro hp
        have hpi : p ≠ i := fun he => hp (he ▸ List.mem_cons_self i rest)
        have hp2 : p ∉ rest := fun hm => hp (List.mem_cons_of_mem i hm)
        rw [(ih s1 s2 h p).2 hp2, hset, List.get?_set_ne none _ hpi.symm]

/-- Position/readiness characterisation of the source's index scan: under
the all-occupied invariant, an index is collected iff the slot there holds
a ready asset. -/
theorem scanReady_mem :
    ∀ (l : List (Option AsyncImage)) (i p : Nat),
    (∀ x ∈ l, x.isSome = true) →
    (p ∈ scanReady l i ↔
      ∃ j a, p = i + j ∧ l.get? j = some (some a) ∧ a.file.ready = true) := by
  intro l
  induction l with
  | nil =>
    intro i p h
    simp [scanReady]
  | cons x rest ih =>
    intro i p h
    cases x with
    | none =>
      have hx := h none (by simp)
      simp at hx
    | some a =>
      have hrest : ∀ x ∈ rest, x.isSome = true := fun x hx => h x (by simp [hx])
      by_cases hr : a.file.ready = true
      · rw [scanReady, if_pos hr]
        constructor
        · intro hp
          rcases List.mem_cons.mp hp with rfl | hp2
          · exact ⟨0, a, by omega, rfl, hr⟩
          · obtain ⟨j, b, rfl, hg, hb⟩ := (ih (i + 1) _ hrest).mp hp2
            exact ⟨j + 1, b, by omega, by simpa using hg, hb⟩
        · rintro ⟨j, b, hpj, hg, hb⟩
          cases j with
          | zero =>
            have hpi : p = i := by omega
            subst hpi
            exact List.mem_cons_self _ _
          | succ j2 =>
            refine List.mem_cons_of_mem _ ((ih (i + 1) _ hrest).mpr ⟨j2, b, by omega, ?_, hb⟩)
            simpa using hg
      · rw [scanReady, if_neg hr]
        constructor
        · intro hp
          obtain ⟨j, b, rfl, hg, hb⟩ := (ih (i + 1) _ hrest).mp hp
          exact ⟨j + 1, b, by omega, by simpa using hg, hb⟩
        · rintro ⟨j, b, hpj, hg, hb⟩
          cases j with
          | zero =>
            simp at hg
            rw [hg] at hr
            exact absurd hb hr
          | succ j2 =>
            exact (ih (i + 1) _ hrest).mpr ⟨j2, b, by omega, by simpa using hg, hb⟩

/-- The pending set only ever shrinks across a non-panicking poll: every
surviving asset was already pending before. -/
theorem poll_shrink (decode : Decoder) (t2 t3 : AppState)
    (h : load_async_images decode t2 = .ok t3) :
    ∀ b, some b ∈ t3.asyncImages → some b ∈ t2.asyncImages := by
  intro b hm
  unfold load_async_images at h
  split at h
  · injection h with h
    subst h
    exact hm
  · split at h
    · simp at h
    · rename_i sf hf
      injection h with h
      subst h
      have hm2 : some b ∈ sf.asyncImages := (List.mem_filter.mp hm).1
      obtain ⟨p, hp⟩ := List.mem_iff_get?.mp hm2
      by_cases hin : p ∈ scanReady t2.asyncImages 0
      · rw [(foldResolve_get decode _ t2 sf hf p).1 hin] at hp
        simp at hp
      · rw [(foldResolve_get decode _ t2 sf hf p).2 hin] at hp
        exact List.get?_mem hp

/-- Membership characterisation of a non-panicking poll under the
all-occupied invariant: exactly the not-ready assets survive, unchanged. -/
theorem poll_mem_iff (decode : Decoder) (s s2 : AppState)
    (h1 : ∀ x ∈ s.asyncImages, x.isSome = true)
    (h : load_async_images decode s = .ok s2) :
    ∀ b, some b ∈ s2.asyncImages ↔
      some b ∈ s.asyncImages ∧ b.file.ready = false := by
  intro b
  unfold load_async_images at h
  split at h
  · rename_i hlen
    injection h with h
    subst h
    rw [List.length_eq_zero.mp hlen]
    simp
  · split at h
    · simp at h
    · rename_i sf hf
      injection h with h
      subst h
      constructor
      · intro hm
        have hm2 : some b ∈ sf.asyncImages := (List.mem_filter.mp hm).1
        obtain ⟨p, hp⟩ := List.mem_iff_get?.mp hm2
        have hnotin : p ∉ scanReady s.asyncImages 0 := by
          intro hin
          rw [(foldResolve_get decode _ s sf hf p).1 hin] at hp
          simp at hp
        have hsp : s.asyncImages.get? p = some (some b) := by
          rw [← (foldResolve_get decode _ s sf hf p).2 hnotin]
          exact hp
        refine ⟨List.get?_mem hsp, ?_⟩
        cases hready : b.file.ready with
        | false => rfl
        | true =>
          exact absurd
            ((scanReady_mem s.asyncImages 0 p h1).mpr ⟨p, b, by omega, hsp, hready⟩)
            hnotin
      · rintro ⟨hmem, hready⟩
        obtain ⟨p, hp⟩ := List.mem_iff_get?.mp hmem
        have hnotin : p ∉ scanReady s.asyncImages 0 := by
          intro hin
          obtain ⟨j, c, hpj, hg, hc⟩ := (scanReady_mem s.asyncImages 0 p h1).mp hin
          have hj : j = p := by omega
          subst hj
          rw [hp] at hg
          injection hg with hg
          injection hg with hg
          rw [← hg, hready] at hc
          cases hc
        have hsf : sf.asyncImages.get? p = some (some b) := by
          rw [(foldResolve_get decode _ s sf hf p).2 hnotin]
          exact hp
        exact List.mem_filter.mpr ⟨List.get?_mem hsf, rfl⟩

/-- A poll of a pending set whose assets are all occupied and none ready is
the identity. -/
theorem poll_id (decode : Decoder) (s : AppState)
    (h1 : ∀ x ∈ s.asyncImages, x.isSome = true)
    (h2 : ∀ b, some b ∈ s.asyncImages → b.file.ready = false) :
    load_async_images decode s = .ok s := by
  unfold load_async_images
  by_cases hlen : s.asyncImages.length = 0
  · rw [if_pos hlen]
  · rw [if_neg hlen]
    have hscan : scanReady s.asyncImages 0 = [] := by
      rw [List.eq_nil_iff_forall_not_mem]
      intro p hp
      obtain ⟨j, a, hpj, hg, hr⟩ := (scanReady_mem s.asyncImages 0 p h1).mp hp
      rw [h2 a (List.get?_mem hg)] at hr
      cases hr
    rw [hscan]
    have hfold : List.foldlM (resolveOne decode) s ([] : List Nat) = .ok s := rfl
    rw [hfold]
    have hfil : s.asyncImages.filter (fun f => f.isSome) = s.asyncImages :=
      List.filter_eq_self.mpr h1
    simp only [hfil]

/-- Any number of polls of an all-occupied, none-ready pending set leaves
the application state exactly as it was. -/
theorem pollIter_id (decode : Decoder) (s : AppState)
    (h1 : ∀ x ∈ s.asyncImages, x.isSome = true)
    (h2 : ∀ b, some b ∈ s.asyncImages → b.file.ready = false) :
    ∀ n, pollIter decode n s = .ok s := by
  intro n
  induction n with
  | zero => rfl
  | succ m ih =>
    rw [pollIter, poll_id decode s h1 h2]
    exact ih

/-- `load_font` never touches the engine slot. -/
theorem load_font_engine (decode : Decoder)
    (fsOpen : List Nat → Except String FileH) (s s1 : AppState)
    (h : load_font decode fsOpen s = .ok s1) : s1.engine = s.engine := by
  unfold load_font at h
  split at h
  · simp at h
  · split at h
    · simp at h
    · split at h
      · split at h
        · rename_i buf hbuf
          exact (load_font_bytes_fields decode buf s s1 h).2
        · simp at h
      · injection h with h
        subst h
        rfl

/-- Every slot of the pending set is occupied after a non-panicking poll:
the retain pass compacts the transiently emptied slots away (and an empty
set is returned untouched). -/
theorem poll_allSome (decode : Decoder) (s s2 : AppState)
    (h : load_async_images decode s = .ok s2) :
    ∀ x ∈ s2.asyncImages, x.isSome = true := by
  unfold load_async_images at h
  split at h
  · rename_i hlen
    injection h with h
    subst h
    rw [List.length_eq_zero.mp hlen]
    intro x hx
    cases hx
  · split at h
    · simp at h
    · rename_i sf hf
      injection h with h
      subst h
      intro x hx
      exact (List.mem_filter.mp hx).2

/-- A not-ready pending asset survives any number of non-panicking polls,
whatever happens to the other (possibly ready) assets, as long as the
all-occupied invariant holds at the start — the polls themselves maintain
it. -/
theorem pollIter_keeps (decode : Decoder) :
    ∀ (n : Nat) (s s2 : AppState),
    (∀ x ∈ s.asyncImages, x.isSome = true) →
    pollIter decode n s = .ok s2 →
    ∀ b, some b ∈ s.asyncImages → b.file.ready = false →
      some b ∈ s2.asyncImages := by
  intro n
  induction n with
  | zero =>
    intro s s2 h1 h b hb hnr
    injection h with h
    subst h
    exact hb
  | succ m ih =>
    intro s s2 h1 h b hb hnr
    rw [pollIter] at h
    cases hp : load_async_images decode s with
    | error e =>
      rw [hp] at h
      replace h : (Except.error e : Except String AppState) = .ok s2 := h
      simp at h
    | ok s1 =>
      rw [hp] at h
      replace h : pollIter decode m s1 = .ok s2 := h
      have hb1 : some b ∈ s1.asyncImages :=
        ((poll_mem_iff decode s s1 h1 hp) b).mpr ⟨hb, hnr⟩
      exact ih s1 s2 (poll_allSome decode s s1 hp) h b hb1 hnr

/-- C5: under the pending-set invariant (every slot occupied),
(1) if no pending asset is ready, any number of polls leaves the state
exactly unchanged; (2) each individual not-ready asset is left untouched —
it is still pending after any number of non-panicking polls, whatever
happens to the other, possibly ready, assets; (3) a ready asset is
resolved by the next non-panicking poll and removed from the pending set;
(4) a poll never re-adds an asset, so removal is permanent; (5) the
pending set is polled exactly once per simulation tick — as often as the
update callback ran, not once per rendered frame (which renders exactly
once regardless). -/
theorem c5_async_resolution (decode : Decoder) (s : AppState)
    (h1 : ∀ x ∈ s.asyncImages, x.isSome = true) :
    ((∀ b, some b ∈ s.asyncImages → b.file.ready = false) →
        ∀ n, pollIter decode n s = .ok s) ∧
    (∀ b, some b ∈ s.asyncImages → b.file.ready = false →
        ∀ n s2, pollIter decode n s = .ok s2 → some b ∈ s2.asyncImages) ∧
    (∀ a s2, some a ∈ s.asyncImages → a.file.ready = true →
        load_async_images decode s = .ok s2 → some a ∉ s2.asyncImages) ∧
    (∀ t2 t3, load_async_images decode t2 = .ok t3 →
        ∀ b, some b ∈ t3.asyncImages → some b ∈ t2.asyncImages) ∧
    (∀ time nt r, frameCallback decode time s nt = .ok r →
        r.polls = r.updates ∧ r.renders = 1) := by
  refine ⟨fun h2 n => pollIter_id decode s h1 h2 n, ?_, ?_, ?_, ?_⟩
  · intro b hb hnr n s2 hit
    exact pollIter_keeps decode n s s2 h1 hit b hb hnr
  · intro a s2 ha hr hok hmem
    have := ((poll_mem_iff decode s s2 h1 hok) a).mp hmem
    rw [hr] at this
    cases this.2
  · intro t2 t3 hok b hb
    exact poll_shrink decode t2 t3 hok b hb
  · intro time nt r hfc
    obtain ⟨t, ht, hself, hup, hpo, hsk, hren, hdraw, hnt⟩ :=
      frameCallback_ok decode time nt s r hfc
    obtain ⟨h1', h2', h3', h4'⟩ := tickLoop_ok decode time 7 s nt (-1) 0 0 t ht
    exact ⟨by omega, hren⟩

/-- Witness for C5: polling a set holding one ready (read-failing) and one
not-ready asset drops exactly the ready one while the not-ready one
survives the same poll — its survival derived from the per-asset conjunct
of the theorem, not recomputed. -/
theorem c5_async_resolution_witness :
    load_async_images decode0 s5 = .ok s5out ∧
    some rdyAsset ∉ s5out.asyncImages ∧
    some pendAsset ∈ s5out.asyncImages := by
  have hok : load_async_images decode0 s5 = .ok s5out := by decide
  have m := c5_async_resolution decode0 s5 (by decide)
  exact ⟨hok,
    m.2.2.1 rdyAsset s5out (by decide) (by decide) hok,
    m.2.1 pendAsset (by decide) (by decide) 1 s5out (by decide)⟩

/-- C2 (amended): resolving a pending asset whose handle is ready but whose
read fails is non-fatal — the failure is logged, exactly that slot is
emptied and nothing else of the application state changes; but a buffer
that the Image Decoder rejects as malformed makes the resolution panic
(the source unwraps the decode result), aborting the loop. -/
theorem c2_read_nonfatal_decode_fatal (decode : Decoder) :
    (∀ (s : AppState) (idx : Nat) (a : AsyncImage) (e : String),
        s.asyncImages.get? idx = some (some a) →
        a.file.contents = Except.error e →
        resolveOne decode s idx =
          .ok { s with asyncImages := s.asyncImages.set idx none }) ∧
    (∀ (s : AppState) (idx : Nat) (a : AsyncImage) (buf : List Nat),
        s.asyncImages.get? idx = some (some a) →
        a.file.contents = Except.ok buf →
        decode buf = none →
        resolveOne decode s idx = .error "panic: could not decode image") := by
  constructor
  · intro s idx a e hg hc
    obtain ⟨aname, aready, acont⟩ := a
    dsimp only at hc
    subst hc
    unfold resolveOne
    rw [hg]
  · intro s idx a buf hg hc hd
    obtain ⟨aname, aready, acont⟩ := a
    dsimp only at hc
    subst hc
    unfold resolveOne
    rw [hg]
    show load_font_bytes decode buf
        { s with asyncImages := s.asyncImages.set idx none } =
      Except.error "panic: could not decode image"
    unfold load_font_bytes
    rw [hd]

/-- Witness for C2: the ready asset of `s5` has a failing read — its
resolution succeeds and empties slot 0; the ready asset of `sC2` reads fine
but `decode0` rejects the bytes — its resolution panics. -/
theorem c2_read_nonfatal_decode_fatal_witness :
    resolveOne decode0 s5 0 =
      .ok { s5 with asyncImages := s5.asyncImages.set 0 none } ∧
    resolveOne decode0 sC2 0 = .error "panic: could not decode image" :=
  ⟨(c2_read_nonfatal_decode_fatal decode0).1 s5 0 rdyAsset "read failed"
      (by decide) (by decide),
   (c2_read_nonfatal_decode_fatal decode0).2 sC2 0 ⟨[1], ⟨true, .ok [0]⟩⟩ [0]
      (by decide) (by decide) rfl⟩

/-- C2 counterexample: a poll that resolves a pending asset whose bytes the
decoder rejects panics — it is fatal, not logged-and-dropped as claimed. -/
theorem c2_decode_fatal_cex :
    load_async_images decode0 sC2 = .error "panic: could not decode image" := by
  decide

/-- C1: on the asynchronous load path the frame loop does not start at all —
`load_font` queues the pending asset and returns, leaving the window/GL/
input slots empty, and `run()` then panics unwrapping the `app` slot before
installing the frame callback (the claim says the loop proceeds, drawing
nothing, until the font is decoded inside a later tick). -/
theorem c1_async_run_panics :
    load_font decode0 fsPending appEngine =
      .ok { appEngine with
            asyncImages := [some ⟨optBase.fontPath, ⟨false, .ok []⟩⟩] } ∧
    runApp decode0 fsPending appEngine = .error "panic: unwrap of empty app slot" := by
  constructor
  · decide
  · decide

/-- C10: running the app with no engine installed never yields a loop —
whatever the decoder, file system and remaining state, `run()`'s prelude
panics at one of its `unwrap`s (there is no graceful error value). -/
theorem c10_no_engine_panics (decode : Decoder)
    (fsOpen : List Nat → Except String FileH) (s : AppState)
    (h : s.engine = none) : (runApp decode fsOpen s).isOk = false := by
  unfold runApp
  cases hlf : load_font decode fsOpen s with
  | error e => simp [Except.isOk, Except.toBool]
  | ok s1 =>
    have he : s1.engine = none := by
      rw [load_font_engine decode fsOpen s s1 hlf, h]
    cases hw : s1.appWindow <;> cases hc : s1.con <;> cases hi : s1.input <;>
      simp [hw, hc, hi, he, Except.isOk, Except.toBool]

/-- Witness for C10: with the font loading synchronously but no engine
installed, `run()`'s prelude yields no loop value (it panics at the engine
unwrap). -/
theorem c10_no_engine_panics_witness :
    (runApp decode160 fsReady appBase).isOk = false :=
  c10_no_engine_panics decode160 fsReady appBase rfl

/-- C7 (amended): for every successfully decoded font image the cell size is
`(W/16, H/16)` in `u32` arithmetic and the window is created with size
exactly `((GW * (W/16)) mod 2^32, (GH * (H/16)) mod 2^32)` — the claimed
`(GW * W/16, GH * H/16)` whenever those products fit in a `u32`. -/
theorem c7_window_size (decode : Decoder) (buf : List Nat) (s : AppState)
    (img : ImageT) (h : decode buf = some img) :
    ∃ s2 w, load_font_bytes decode buf s = .ok s2 ∧ s2.appWindow = some w ∧
      w.size = (s.options.consoleWidth * (img.width % 2 ^ 32 / 16) % 2 ^ 32,
                s.options.consoleHeight * (img.height % 2 ^ 32 / 16) % 2 ^ 32) := by
  unfold load_font_bytes
  rw [h]
  exact ⟨_, _, rfl, rfl, rfl⟩

/-- Witness for C7, the spec's scenario: a 160×160 font with an 80×25 grid
creates the window at exactly 800×250 pixels. -/
theorem c7_window_size_witness :
    windowSize (load_font_bytes decode160 [] appBase) = some (800, 250) := by
  obtain ⟨s2, w, hok, hw, hs⟩ := c7_window_size decode160 [] appBase ⟨160, 160⟩ rfl
  have hsz : w.size = (800, 250) := by
    rw [hs]
    decide
  unfold windowSize
  simp only [hok]
  rw [hw]
  simp [hsz]

/-- C7 counterexample: a valid 4294967280×16 image with a 17×1 grid makes
`GW * (W/16) = 4563402735` overflow `u32`; the window is created 268435439
pixels wide, not the claimed exact product. -/
theorem c7_overflow_cex :
    windowSize (load_font_bytes decodeBig [] sBig) = some (268435439, 1) ∧
    sBig.options.consoleWidth * (4294967280 / 16) = 4563402735 ∧
    (268435439 : Nat) ≠ 4563402735 := by
  refine ⟨by decide, by decide, by decide⟩

/-- C8 (amended): for (ASCII) byte-string paths, a path starting with the
separator `/` is opened unchanged; any other path of length ≥ 2 is opened
unchanged when its second byte is the drive-letter colon and prefixed with
the fixed base directory "static/" otherwise; the empty path and one-byte
paths other than "/" panic on the source's byte-range slicing. -/
theorem c8_path_resolution :
    open_fileResolve [] = none ∧
    (∀ c : Nat, c ≠ 47 → open_fileResolve [c] = none) ∧
    open_fileResolve [47] = some [47] ∧
    (∀ (b : Nat) (l : List Nat),
      open_fileResolve (47 :: b :: l) = some (47 :: b :: l)) ∧
    (∀ (a : Nat) (l : List Nat), a ≠ 47 →
      open_fileResolve (a :: 58 :: l) = some (a :: 58 :: l)) ∧
    (∀ (a b : Nat) (l : List Nat), a ≠ 47 → b ≠ 58 →
      open_fileResolve (a :: b :: l) = some (staticDir ++ a :: b :: l)) := by
  refine ⟨rfl, ?_, rfl, ?_, ?_, ?_⟩
  · intro c hc
    simp [open_fileResolve, hc]
  · intro b l
    simp [open_fileResolve]
  · intro a l ha
    simp [open_fileResolve, ha]
  · intro a b l ha hb
    simp [open_fileResolve, ha, hb]

/-- Witness for C8: "a" panics, "c:\" is opened unchanged, "abc" is opened
under "static/". -/
theorem c8_path_resolution_witness :
    open_fileResolve [97] = none ∧
    open_fileResolve [99, 58, 92] = some [99, 58, 92] ∧
    open_fileResolve [97, 98, 99] = some (staticDir ++ [97, 98, 99]) :=
  ⟨c8_path_resolution.2.1 97 (by decide),
   c8_path_resolution.2.2.2.2.1 99 [92] (by decide),
   c8_path_resolution.2.2.2.2.2 97 98 [99] (by decide) (by decide)⟩

/-- C8 counterexample: opening the one-byte relative path "a" panics on
byte slicing instead of resolving it under the base directory; and
"ab:" contains the drive-letter byte yet is prefixed rather than opened
unchanged. -/
theorem c8_short_path_cex :
    open_fileResolve [97] = none ∧
    open_fileResolve [97] ≠ some (staticDir ++ [97]) ∧
    open_fileResolve [97] ≠ some [97] ∧
    open_fileResolve [97, 98, 58] = some (staticDir ++ [97, 98, 58]) ∧
    (58 : Nat) ∈ [97, 98, 58] := by
  exact ⟨rfl, by decide, by decide, by decide, by decide⟩

/-- C9: the engine's single primitive geometry has exactly 8 position
floats, a present texture-coordinate array of exactly 8 floats, vertex
count 4, one instance per primitive, and triangle-fan topology; it passes
the length/count agreement, and the (spec-modelled) render entry issues a
draw call exactly for geometries passing that agreement. -/
theorem c9_geometry_invariant :
    create_primitive.posData.length = 8 ∧
    (∃ t, create_primitive.texData = some t ∧ t.length = 8) ∧
    create_primitive.count = 4 ∧
    create_primitive.dataPerPrimitive = 1 ∧
    create_primitive.drawMode = Primitives.triangleFan ∧
    geomValid create_primitive = true ∧
    (∀ d : PrimitiveData, (render_primitive_gate d).isSome = geomValid d) := by
  refine ⟨rfl, ⟨[0, 1, 0, 0, 1, 0, 1, 1], rfl, rfl⟩, rfl, rfl, rfl, rfl, ?_⟩
  intro d
  unfold render_primitive_gate
  by_cases hg : geomValid d = true
  · rw [if_pos hg, hg]
    rfl
  · rw [if_neg hg]
    simp only [Bool.not_eq_true] at hg
    rw [hg]
    rfl
